import Mathlib

/-!
Shallow embedding of the shopping-cart pricing and state engine of the
onicommerce repository (src/models/Order.ts cart section, src/types/Cart.ts,
and the enhanced cart hook with the "safe" wrapper family).

JavaScript numbers are modelled as exact rationals (ℚ); the cart arithmetic
is plain +, -, *, /, min on those. The JS truthiness fallback `a?.x || b`
(which falls back when the left side is absent or 0) is modelled by `jsOr`.
State updates of the React reducer become a pure function
`cartReducer : CartState → CartAction → CartState`; the provider's
"recompute the summary after every mutation" effect becomes `runEffect`,
and a public cart operation is a reducer step followed by that effect.
-/

namespace Onicommerce

/-- JS `o?.x || b` for an optional numeric field: falls back to `b` when the
optional is absent or its value is `0` (0 is falsy in JS). -/
def jsOr : Option ℚ → ℚ → ℚ
  | some x, b => if x = 0 then b else x
  | none, b => b

/-- Product shipping block (`shipping: { weight }`) as read by the cart
(`item.product.shipping?.weight`). -/
structure ProductShipping where
  weight : ℚ
  deriving DecidableEq

/-- The slice of the catalog `Product` snapshot the cart code reads:
its price and its optional shipping block. -/
structure Product where
  price : ℚ
  shipping : Option ProductShipping
  deriving DecidableEq

/-- `CartItem.variant` (src/types/Cart.ts): id, name, sku, attribute map,
variant-specific price. -/
structure Variant where
  id : String
  name : String
  sku : String
  attributes : List (String × String)
  price : ℚ
  deriving DecidableEq

/-- `CartItem` (src/types/Cart.ts). -/
structure CartItem where
  id : String
  productId : String
  product : Product
  variant : Option Variant
  quantity : ℚ
  price : ℚ
  total : ℚ
  deriving DecidableEq

/-- `CartSummary` (src/types/Cart.ts). -/
structure CartSummary where
  subtotal : ℚ
  taxAmount : ℚ
  shippingAmount : ℚ
  discountAmount : ℚ
  total : ℚ
  itemCount : ℚ
  weight : ℚ
  deriving DecidableEq

/-- The three discount kinds of `CartDiscount.type`. -/
inductive DiscountType where
  | percentage
  | fixed_amount
  | free_shipping
  deriving DecidableEq

/-- `CartDiscount` (src/types/Cart.ts). -/
structure CartDiscount where
  code : String
  type : DiscountType
  value : ℚ
  description : String
  appliedAt : Option String
  deriving DecidableEq

/-- `CartShipping` (src/types/Cart.ts). -/
structure CartShipping where
  method : String
  cost : ℚ
  estimatedDays : ℚ
  carrier : Option String
  deriving DecidableEq

/-- `CartState` (src/types/Cart.ts). -/
structure CartState where
  items : List CartItem
  summary : CartSummary
  discounts : List CartDiscount
  shipping : Option CartShipping
  isInitialized : Bool
  isLoading : Bool
  error : Option String
  deriving DecidableEq

/-- The `initialState` constant of src/models/Order.ts. -/
def initialState : CartState where
  items := []
  summary :=
    { subtotal := 0, taxAmount := 0, shippingAmount := 0, discountAmount := 0
      total := 0, itemCount := 0, weight := 0 }
  discounts := []
  shipping := none
  isInitialized := false
  isLoading := false
  error := none

/-- The `CartAction` union of src/models/Order.ts. -/
inductive CartAction where
  | INITIALIZE_CART (payload : CartState)
  | SET_LOADING (payload : Bool)
  | SET_ERROR (payload : Option String)
  | ADD_ITEM (payload : CartItem)
  | REMOVE_ITEM (payload : String)
  | UPDATE_QUANTITY (id : String) (quantity : ℚ)
  | CLEAR_CART
  | APPLY_DISCOUNT (payload : CartDiscount)
  | REMOVE_DISCOUNT (payload : String)
  | SET_SHIPPING (payload : CartShipping)
  | CALCULATE_SUMMARY

/-- One step of the `discounts.forEach` loop of `calculateCartSummary`,
acting on the mutable pair (discountAmount, shippingAmount). -/
def discountStep (subtotal : ℚ) (acc : ℚ × ℚ) (discount : CartDiscount) : ℚ × ℚ :=
  match discount.type with
  | .percentage => (acc.1 + subtotal * discount.value / 100, acc.2)
  | .fixed_amount => (acc.1 + min discount.value subtotal, acc.2)
  | .free_shipping => (acc.1, 0)

/-- `calculateCartSummary` of src/models/Order.ts. The three `reduce` calls
become `foldl`; the `forEach` over discounts with the two mutable
accumulators `discountAmount` / `shippingAmount` becomes a `foldl` of
`discountStep` over the pair, started at `(0, shipping?.cost || 0)`. -/
def calculateCartSummary (items : List CartItem) (discounts : List CartDiscount)
    (shipping : Option CartShipping) : CartSummary :=
  let subtotal := items.foldl (fun sum item => sum + item.total) 0
  let itemCount := items.foldl (fun sum item => sum + item.quantity) 0
  let weight := items.foldl (fun sum item =>
    let itemWeight := jsOr (item.product.shipping.map ProductShipping.weight) 0
    sum + itemWeight * item.quantity) 0
  let acc := discounts.foldl (discountStep subtotal)
    (0, jsOr (shipping.map CartShipping.cost) 0)
  let discountAmount := acc.1
  let shippingAmount := acc.2
  let taxRate : ℚ := 8 / 100
  let taxableAmount := subtotal - discountAmount
  let taxAmount := taxableAmount * taxRate
  let total := taxableAmount + taxAmount + shippingAmount
  { subtotal := subtotal, taxAmount := taxAmount, shippingAmount := shippingAmount
    discountAmount := discountAmount, total := total, itemCount := itemCount
    weight := weight }

/-- The `findIndex` predicate of the ADD_ITEM case: same `productId` and same
`variant?.id`. -/
def itemMatches (payload item : CartItem) : Bool :=
  decide (item.productId = payload.productId ∧
    item.variant.map Variant.id = payload.variant.map Variant.id)

/-- The in-place update of the matched line of the ADD_ITEM case: quantity
grows by the payload's quantity, total is recomputed from
`action.payload.variant?.price || item.price`. -/
def mergeAdd (payload item : CartItem) : CartItem :=
  { item with
    quantity := item.quantity + payload.quantity,
    total := (item.quantity + payload.quantity) *
      jsOr (payload.variant.map Variant.price) item.price }

/-- `cartReducer` of src/models/Order.ts. JS `findIndex` returning `-1` for
"no match" becomes `List.findIdx` returning the length; the guard
`existingItemIndex >= 0` becomes `existingItemIndex < length`. -/
def cartReducer (state : CartState) (action : CartAction) : CartState :=
  match action with
  | .INITIALIZE_CART payload => { payload with isInitialized := true }
  | .SET_LOADING payload => { state with isLoading := payload }
  | .SET_ERROR payload => { state with error := payload }
  | .ADD_ITEM payload =>
    let existingItemIndex := state.items.findIdx (itemMatches payload)
    let newItems :=
      if existingItemIndex < state.items.length then
        state.items.mapIdx fun index item =>
          if index = existingItemIndex then mergeAdd payload item else item
      else
        state.items ++ [payload]
    { state with items := newItems }
  | .REMOVE_ITEM payload =>
    { state with items := state.items.filter fun item => item.id != payload }
  | .UPDATE_QUANTITY id quantity =>
    if quantity ≤ 0 then
      { state with items := state.items.filter fun item => item.id != id }
    else
      { state with items := state.items.map fun item =>
          if item.id = id then
            { item with
              quantity := quantity,
              total := quantity * jsOr (item.variant.map Variant.price) item.price }
          else item }
  | .CLEAR_CART =>
    { state with items := [], discounts := [], shipping := none }
  | .APPLY_DISCOUNT payload =>
    { state with discounts :=
        (state.discounts.filter fun d => d.code != payload.code) ++ [payload] }
  | .REMOVE_DISCOUNT payload =>
    { state with discounts := state.discounts.filter fun d => d.code != payload }
  | .SET_SHIPPING payload =>
    { state with shipping := some payload }
  | .CALCULATE_SUMMARY =>
    { state with summary :=
        calculateCartSummary state.items state.discounts state.shipping }

/-- The provider's "calculate summary whenever items, discounts or shipping
change" effect: dispatches CALCULATE_SUMMARY when the (new) state is
initialized, else does nothing. -/
def runEffect (state : CartState) : CartState :=
  if state.isInitialized then cartReducer state .CALCULATE_SUMMARY else state

/-- Dispatch of one action followed by the summary-recomputation effect:
what a caller of the provider observes after a public operation settles. -/
def dispatchPublic (state : CartState) (action : CartAction) : CartState :=
  runEffect (cartReducer state action)

/-- The argument of the public `addItem`: a CartItem minus `id` and `total`
(TS `Omit<CartItem, 'id' | 'total'>`). -/
structure CartItemInput where
  productId : String
  product : Product
  variant : Option Variant
  quantity : ℚ
  price : ℚ
  deriving DecidableEq

/-- The `addItem` callback's construction of the dispatched CartItem:
`id` is `productId-variantId-or-default`, `total` is
`quantity * (variant?.price || price)`. -/
def mkCartItem (item : CartItemInput) : CartItem where
  id := item.productId ++ "-" ++ ((item.variant.map Variant.id).getD "default")
  productId := item.productId
  product := item.product
  variant := item.variant
  quantity := item.quantity
  price := item.price
  total := item.quantity * jsOr (item.variant.map Variant.price) item.price

/-- The seven public mutation operations of the cart context
(addItem, removeItem, updateQuantity, clearCart, applyDiscount,
removeDiscount, setShippingMethod). -/
inductive CartOp where
  | add (item : CartItemInput)
  | remove (itemId : String)
  | update (itemId : String) (quantity : ℚ)
  | clear
  | applyD (discount : CartDiscount)
  | removeD (code : String)
  | setShip (shipping : CartShipping)

/-- The action each public operation dispatches. -/
def CartOp.toAction : CartOp → CartAction
  | .add item => .ADD_ITEM (mkCartItem item)
  | .remove itemId => .REMOVE_ITEM itemId
  | .update itemId quantity => .UPDATE_QUANTITY itemId quantity
  | .clear => .CLEAR_CART
  | .applyD discount => .APPLY_DISCOUNT discount
  | .removeD code => .REMOVE_DISCOUNT code
  | .setShip shipping => .SET_SHIPPING shipping

/-- Run one public operation (dispatch plus effect). -/
def runOp (state : CartState) (op : CartOp) : CartState :=
  dispatchPublic state op.toAction

/-- Run a sequence of public operations. -/
def runOps (state : CartState) (ops : List CartOp) : CartState :=
  ops.foldl runOp state

/-- `applyDiscountSafely` of the enhanced cart hook: validates the discount
and either forwards it to the context's `applyDiscount` (dispatch plus the
summary effect) or records the rejection reason in the cart-level error
field. The JS throw/catch pair that routes each thrown message into
`cart.cart.error` is modelled as the corresponding error assignment. -/
def applyDiscountSafely (cart : CartState) (discount : CartDiscount) : CartState :=
  if cart.discounts.any fun d => d.code == discount.code then
    { cart with error := some "Discount code already applied" }
  else if discount.value ≤ 0 then
    { cart with error := some "Discount value must be greater than 0" }
  else if discount.type = DiscountType.percentage ∧ discount.value > 100 then
    { cart with error := some "Percentage discount cannot exceed 100%" }
  else
    dispatchPublic cart (.APPLY_DISCOUNT discount)

/-- The provider's startup load effect: SET_LOADING true, then INITIALIZE_CART
with the parsed snapshot when the storage key is present and parsing succeeds
and with `initialState` when the key is absent or parsing throws (the catch
branch), and finally SET_LOADING false. The storage read result is the
`savedCart` argument; JSON deserialization is the `parse` argument, a throw
being an `Except.error`. -/
def loadCart (parse : String → Except String CartState)
    (savedCart : Option String) : CartState :=
  let s₀ := cartReducer initialState (.SET_LOADING true)
  let s₁ :=
    match savedCart with
    | some saved =>
      match parse saved with
      | .ok cartData => cartReducer s₀ (.INITIALIZE_CART cartData)
      | .error _ => cartReducer s₀ (.INITIALIZE_CART initialState)
    | none => cartReducer s₀ (.INITIALIZE_CART initialState)
  cartReducer s₁ (.SET_LOADING false)

/-- Recursive characterization of the ADD_ITEM list update: merge into the
first line matching the payload's (productId, variant id) key, else append. -/
def insertMerge (payload : CartItem) : List CartItem → List CartItem
  | [] => [payload]
  | item :: rest =>
    if itemMatches payload item then mergeAdd payload item :: rest
    else item :: insertMerge payload rest

/-- The unit price the code recomputes totals from:
`item.variant?.price || item.price` (JS truthiness: a variant priced 0 falls
back to the stored price field). -/
def unitPrice (item : CartItem) : ℚ :=
  jsOr (item.variant.map Variant.price) item.price

/-- The unit price as the spec's data-model section words it: "variant price
if present, else product price". Declared only to compare the spec's claim
with the code's `unitPrice`. -/
def specUnitPrice (item : CartItem) : ℚ :=
  match item.variant with
  | some v => v.price
  | none => item.product.price

/-- The dedup/merge key of an addItem argument: (productId, variant id). -/
def inputKey (a : CartItemInput) : String × Option String :=
  (a.productId, a.variant.map Variant.id)

/-- The dedup/merge key of a stored line item: (productId, variant id). -/
def itemKey (item : CartItem) : String × Option String :=
  (item.productId, item.variant.map Variant.id)

/-- An operation sequence is add-uniform when any two addItem calls sharing a
(productId, variant id) key pass the same variant and the same price field. -/
def UniformAdds (ops : List CartOp) : Prop :=
  ∀ a b : CartItemInput, CartOp.add a ∈ ops → CartOp.add b ∈ ops →
    inputKey a = inputKey b → a.variant = b.variant ∧ a.price = b.price

/-- Every stored line satisfies total = quantity × unit price. -/
def TotalsOk (items : List CartItem) : Prop :=
  ∀ it ∈ items, it.total = it.quantity * unitPrice it

/-- Every stored line's key, variant and price were supplied by some addItem
call of the sequence. -/
def ConsistentWith (ops : List CartOp) (items : List CartItem) : Prop :=
  ∀ it ∈ items, ∃ a : CartItemInput, CartOp.add a ∈ ops ∧
    inputKey a = itemKey it ∧ a.variant = it.variant ∧ a.price = it.price

/-- What one discount adds to `discountAmount`: a function of the subtotal
and the discount alone (free-shipping discounts add nothing). -/
def discountContribution (subtotal : ℚ) (discount : CartDiscount) : ℚ :=
  match discount.type with
  | .percentage => subtotal * discount.value / 100
  | .fixed_amount => min discount.value subtotal
  | .free_shipping => 0

/-- Whether a discount is of the free-shipping kind. -/
def isFreeShipping (discount : CartDiscount) : Bool :=
  decide (discount.type = DiscountType.free_shipping)

/-- A variant-free add-to-cart argument: unit price 20, quantity 2. -/
def input20 : CartItemInput :=
  { productId := "p1", product := { price := 20, shipping := none },
    variant := none, quantity := 2, price := 20 }

/-- An add-to-cart argument whose price field (5) disagrees with its
product's catalog price (7); the public addItem accepts it unchanged. -/
def inputMismatch : CartItemInput :=
  { productId := "q1", product := { price := 7, shipping := none },
    variant := none, quantity := 1, price := 5 }

/-- An add-to-cart argument carrying a variant priced 3. -/
def inputVar : CartItemInput :=
  { productId := "p2", product := { price := 9, shipping := none },
    variant := some { id := "v1", name := "Var", sku := "sku1",
                      attributes := [], price := 3 },
    quantity := 2, price := 9 }

/-- A 10% percentage discount. -/
def discount10 : CartDiscount :=
  { code := "SAVE10", type := .percentage, value := 10, description := "10% off",
    appliedAt := none }

/-- A 200% percentage discount (admissible input: the code nowhere bounds
percentage values before `calculateCartSummary` folds them in). -/
def discount200 : CartDiscount :=
  { code := "SAVE200", type := .percentage, value := 200, description := "200% off",
    appliedAt := none }

/-- A free-shipping discount. -/
def discountFS : CartDiscount :=
  { code := "FREESHIP", type := .free_shipping, value := 1,
    description := "free shipping", appliedAt := none }

/-- A shipping selection costing 5. -/
def ship5 : CartShipping :=
  { method := "standard", cost := 5, estimatedDays := 3, carrier := none }

/-! Helper lemmas about the embedded definitions. -/

/-- None of the seven public mutation actions touches `isInitialized`. -/
theorem toAction_keeps_isInitialized (s : CartState) (op : CartOp) :
    (cartReducer s op.toAction).isInitialized = s.isInitialized := by
  cases op <;> simp [CartOp.toAction, cartReducer, apply_ite CartState.isInitialized]

/-- The `discountAmount` component of the discount fold is the start value
plus the sum of the per-discount contributions. -/
theorem foldl_discountStep_fst (st : ℚ) (ds : List CartDiscount) (a sh : ℚ) :
    (ds.foldl (discountStep st) (a, sh)).1 =
      a + (ds.map (discountContribution st)).sum := by
  induction ds generalizing a sh with
  | nil => simp
  | cons d ds ih =>
    simp only [List.foldl_cons, List.map_cons, List.sum_cons]
    cases hd : d.type <;>
      simp [discountStep, hd, discountContribution, ih, add_assoc]

/-- The `shippingAmount` component of the discount fold is 0 as soon as any
free-shipping discount occurs, and the start value otherwise. -/
theorem foldl_discountStep_snd (st : ℚ) (ds : List CartDiscount) (a sh : ℚ) :
    (ds.foldl (discountStep st) (a, sh)).2 =
      if ds.any isFreeShipping then 0 else sh := by
  induction ds generalizing a sh with
  | nil => simp
  | cons d ds ih =>
    simp only [List.foldl_cons, List.any_cons]
    cases hd : d.type <;> simp [discountStep, hd, isFreeShipping, ih]

/-- `a?.x || 0` is just `getD 0`: the 0-falsy fallback is invisible when the
fallback is itself 0. -/
theorem jsOr_zero (o : Option ℚ) : jsOr o 0 = o.getD 0 := by
  cases o with
  | none => rfl
  | some x =>
    simp only [jsOr, Option.getD_some]
    split <;> simp_all

/-- Permutations preserve `List.any`. -/
theorem perm_any {α : Type} {l₁ l₂ : List α} (h : l₁.Perm l₂) (p : α → Bool) :
    l₁.any p = l₂.any p := by
  cases h₁ : l₁.any p <;> cases h₂ : l₂.any p <;>
    simp_all [List.any_eq_true, h.mem_iff]
  all_goals first
    | (obtain ⟨x, hx, hpx⟩ := h₂; exact absurd hpx (by simp [h₁ x hx]))
    | (obtain ⟨x, hx, hpx⟩ := h₁; exact absurd hpx (by simp [h₂ x hx]))

/-- Pointwise-equal index functions give equal `mapIdx` results. -/
theorem mapIdx_congr_fn {α β : Type} (f g : ℕ → α → β) (l : List α)
    (h : ∀ i a, f i a = g i a) : l.mapIdx f = l.mapIdx g := by
  induction l generalizing f g with
  | nil => rfl
  | cons a l ih =>
    simp only [List.mapIdx_cons, h 0 a]
    exact congrArg _ (ih _ _ fun i b => h (i + 1) b)

/-- `mapIdx` with the identity function is the identity. -/
theorem mapIdx_id_fn {α : Type} (l : List α) : l.mapIdx (fun _ a => a) = l := by
  induction l with
  | nil => rfl
  | cons a l ih => simp only [List.mapIdx_cons, ih]

/-- The findIdx-guarded indexed map of the ADD_ITEM case equals the recursive
merge-or-append `insertMerge`. -/
theorem addList_eq_insertMerge (payload : CartItem) (l : List CartItem) :
    (if l.findIdx (itemMatches payload) < l.length then
      l.mapIdx fun index item =>
        if index = l.findIdx (itemMatches payload) then mergeAdd payload item
        else item
    else l ++ [payload]) = insertMerge payload l := by
  induction l with
  | nil => simp [insertMerge]
  | cons x l ih =>
    rw [List.findIdx_cons]
    by_cases hx : itemMatches payload x
    · simp only [hx, cond_true]
      rw [if_pos (by simp only [List.length_cons]; omega)]
      simp only [insertMerge, hx, if_true, List.mapIdx_cons, if_pos rfl]
      rw [mapIdx_congr_fn _ (fun _ a => a) l
        (fun i a => if_neg (by omega)), mapIdx_id_fn]
    · simp only [hx, cond_false]
      by_cases hk : l.findIdx (itemMatches payload) < l.length
      · rw [if_pos (by simp only [List.length_cons]; omega)]
        simp only [List.mapIdx_cons]
        rw [if_neg (by omega)]
        rw [mapIdx_congr_fn _
          (fun i item => if i = l.findIdx (itemMatches payload) then
            mergeAdd payload item else item)
          l (fun i a => if_congr (by omega) rfl rfl)]
        rw [if_pos hk] at ih
        rw [ih]
        simp only [insertMerge, hx]
        rw [if_neg (by simp [hx])]
      · rw [if_neg (by simp only [List.length_cons]; omega)]
        rw [if_neg hk] at ih
        simp only [insertMerge, hx, List.cons_append, ih]
        rw [if_neg (by simp [hx])]

/-- The summary effect never changes the item list. -/
theorem runEffect_items (s : CartState) : (runEffect s).items = s.items := by
  unfold runEffect
  split <;> rfl

/-- Items after a public addItem: merge-or-append of the constructed line. -/
theorem runOp_add_items (s : CartState) (a : CartItemInput) :
    (runOp s (CartOp.add a)).items = insertMerge (mkCartItem a) s.items := by
  rw [runOp, dispatchPublic, runEffect_items, CartOp.toAction]
  simpa [cartReducer] using addList_eq_insertMerge (mkCartItem a) s.items

/-- Items after a public removeItem: filter by id. -/
theorem runOp_remove_items (s : CartState) (itemId : String) :
    (runOp s (CartOp.remove itemId)).items =
      s.items.filter fun item => item.id != itemId := by
  rw [runOp, dispatchPublic, runEffect_items]
  rfl

/-- Items after a public updateQuantity: removal filter when the quantity is
non-positive, else in-place quantity/total update. -/
theorem runOp_update_items (s : CartState) (itemId : String) (q : ℚ) :
    (runOp s (CartOp.update itemId q)).items =
      if q ≤ 0 then s.items.filter fun item => item.id != itemId
      else s.items.map fun item =>
        if item.id = itemId then
          { item with
            quantity := q,
            total := q * jsOr (item.variant.map Variant.price) item.price }
        else item := by
  rw [runOp, dispatchPublic, runEffect_items, CartOp.toAction]
  simp only [cartReducer]
  split <;> rfl

/-- Items after a public clearCart: empty. -/
theorem runOp_clear_items (s : CartState) :
    (runOp s CartOp.clear).items = [] := by
  rw [runOp, dispatchPublic, runEffect_items]
  rfl

/-- applyDiscount leaves the item list alone. -/
theorem runOp_applyD_items (s : CartState) (d : CartDiscount) :
    (runOp s (CartOp.applyD d)).items = s.items := by
  rw [runOp, dispatchPublic, runEffect_items]
  rfl

/-- removeDiscount leaves the item list alone. -/
theorem runOp_removeD_items (s : CartState) (c : String) :
    (runOp s (CartOp.removeD c)).items = s.items := by
  rw [runOp, dispatchPublic, runEffect_items]
  rfl

/-- setShippingMethod leaves the item list alone. -/
theorem runOp_setShip_items (s : CartState) (sh : CartShipping) :
    (runOp s (CartOp.setShip sh)).items = s.items := by
  rw [runOp, dispatchPublic, runEffect_items]
  rfl

/-- Merging an add-uniform payload into a consistent list keeps every total
equal to quantity × unit price, and keeps the list consistent. -/
theorem insertMerge_preserves (A : List CartOp) (hU : UniformAdds A)
    (a : CartItemInput) (ha : CartOp.add a ∈ A) :
    ∀ items : List CartItem, TotalsOk items → ConsistentWith A items →
    TotalsOk (insertMerge (mkCartItem a) items) ∧
    ConsistentWith A (insertMerge (mkCartItem a) items) := by
  intro items
  induction items with
  | nil =>
    intro _ _
    constructor
    · intro it hit
      simp only [insertMerge, List.mem_singleton] at hit
      subst hit
      rfl
    · intro it hit
      simp only [insertMerge, List.mem_singleton] at hit
      subst hit
      exact ⟨a, ha, rfl, rfl, rfl⟩
  | cons x rest ih =>
    intro hT hC
    by_cases hm : itemMatches (mkCartItem a) x
    · obtain ⟨b, hbA, hbk, hbv, hbp⟩ := hC x (List.mem_cons_self x rest)
      have hm' : x.productId = a.productId ∧
          x.variant.map Variant.id = a.variant.map Variant.id := by
        simpa [itemMatches, mkCartItem] using hm
      have hkeys : inputKey a = inputKey b := by
        rw [hbk]
        simp [inputKey, itemKey, hm'.1, hm'.2]
      have hvp := hU a b ha hbA hkeys
      have hav : a.variant = x.variant := by rw [hvp.1, hbv]
      have hlist : insertMerge (mkCartItem a) (x :: rest) =
          mergeAdd (mkCartItem a) x :: rest := by
        simp [insertMerge, hm]
      constructor
      · intro it hit
        rw [hlist] at hit
        rcases List.mem_cons.mp hit with h | h
        · subst h
          simp [mergeAdd, mkCartItem, unitPrice, hav]
        · exact hT it (List.mem_cons_of_mem _ h)
      · intro it hit
        rw [hlist] at hit
        rcases List.mem_cons.mp hit with h | h
        · subst h
          exact ⟨b, hbA, by simpa [itemKey, mergeAdd] using hbk,
            by simpa [mergeAdd] using hbv, by simpa [mergeAdd] using hbp⟩
        · exact hC it (List.mem_cons_of_mem _ h)
    · obtain ⟨ihT, ihC⟩ := ih (fun it h => hT it (List.mem_cons_of_mem _ h))
        (fun it h => hC it (List.mem_cons_of_mem _ h))
      have hlist : insertMerge (mkCartItem a) (x :: rest) =
          x :: insertMerge (mkCartItem a) rest := by
        simp [insertMerge, hm]
      constructor
      · intro it hit
        rw [hlist] at hit
        rcases List.mem_cons.mp hit with h | h
        · subst h
          exact hT _ (List.mem_cons_self _ rest)
        · exact ihT it h
      · intro it hit
        rw [hlist] at hit
        rcases List.mem_cons.mp hit with h | h
        · subst h
          exact hC _ (List.mem_cons_self _ rest)
        · exact ihC it h

/-- One public operation out of an add-uniform sequence preserves both item
invariants. -/
theorem runOp_preserves (A : List CartOp) (hU : UniformAdds A) (op : CartOp)
    (hop : ∀ a : CartItemInput, op = CartOp.add a → CartOp.add a ∈ A)
    (s : CartState) (hT : TotalsOk s.items) (hC : ConsistentWith A s.items) :
    TotalsOk (runOp s op).items ∧ ConsistentWith A (runOp s op).items := by
  cases op with
  | add a =>
    rw [runOp_add_items]
    exact insertMerge_preserves A hU a (hop a rfl) s.items hT hC
  | remove itemId =>
    rw [runOp_remove_items]
    exact ⟨fun it hit => hT it (List.mem_of_mem_filter hit),
      fun it hit => hC it (List.mem_of_mem_filter hit)⟩
  | update itemId q =>
    rw [runOp_update_items]
    split
    · exact ⟨fun it hit => hT it (List.mem_of_mem_filter hit),
        fun it hit => hC it (List.mem_of_mem_filter hit)⟩
    · constructor
      · intro it hit
        obtain ⟨pre, hpre, rfl⟩ := List.mem_map.mp hit
        by_cases hid : pre.id = itemId
        · simp [hid, unitPrice]
        · simp only [hid, if_false, ite_false]
          exact hT pre hpre
      · intro it hit
        obtain ⟨pre, hpre, rfl⟩ := List.mem_map.mp hit
        obtain ⟨b, hbA, hbk, hbv, hbp⟩ := hC pre hpre
        by_cases hid : pre.id = itemId
        · exact ⟨b, hbA, by simpa [itemKey, hid] using hbk,
            by simpa [hid] using hbv, by simpa [hid] using hbp⟩
        · exact ⟨b, hbA, by simpa [itemKey, hid] using hbk,
            by simpa [hid] using hbv, by simpa [hid] using hbp⟩
  | clear =>
    rw [runOp_clear_items]
    exact ⟨fun it hit => absurd hit (List.not_mem_nil it),
      fun it hit => absurd hit (List.not_mem_nil it)⟩
  | applyD d =>
    rw [runOp_applyD_items]
    exact ⟨hT, hC⟩
  | removeD c =>
    rw [runOp_removeD_items]
    exact ⟨hT, hC⟩
  | setShip sh =>
    rw [runOp_setShip_items]
    exact ⟨hT, hC⟩

/-- Running any portion of an add-uniform sequence preserves both item
invariants. -/
theorem runOps_preserves (A : List CartOp) (hU : UniformAdds A) :
    ∀ ops : List CartOp,
    (∀ a : CartItemInput, CartOp.add a ∈ ops → CartOp.add a ∈ A) →
    ∀ s : CartState, TotalsOk s.items → ConsistentWith A s.items →
    TotalsOk (runOps s ops).items ∧ ConsistentWith A (runOps s ops).items := by
  intro ops
  induction ops with
  | nil => exact fun _ s hT hC => ⟨hT, hC⟩
  | cons op rest ih =>
    intro hsub s hT hC
    have h1 := runOp_preserves A hU op
      (fun a hEq => hsub a (hEq ▸ List.mem_cons_self op rest)) s hT hC
    exact ih (fun a haRest => hsub a (List.mem_cons_of_mem op haRest))
      (runOp s op) h1.1 h1.2

/-- Folding same-key addItem calls into a singleton cart keeps it a singleton
with the key preserved and the quantities accumulated. -/
theorem runOps_add_same_key (pid : String) (vid : Option String) :
    ∀ inputs : List CartItemInput,
    (∀ a ∈ inputs, a.productId = pid ∧ a.variant.map Variant.id = vid) →
    ∀ (s : CartState) (it : CartItem), s.items = [it] → it.productId = pid →
      it.variant.map Variant.id = vid →
    ∃ it', (runOps s (inputs.map CartOp.add)).items = [it'] ∧
      it'.productId = pid ∧ it'.variant.map Variant.id = vid ∧
      it'.quantity = it.quantity + (inputs.map CartItemInput.quantity).sum := by
  intro inputs
  induction inputs with
  | nil =>
    intro _ s it hs hp hv
    exact ⟨it, by simpa [runOps] using hs, hp, hv, by simp⟩
  | cons a rest ih =>
    intro hkey s it hs hp hv
    have ha := hkey a (List.mem_cons_self a rest)
    have hmatch : itemMatches (mkCartItem a) it = true := by
      simp [itemMatches, mkCartItem, hp, hv, ha.1, ha.2]
    have hstep : (runOp s (CartOp.add a)).items =
        [mergeAdd (mkCartItem a) it] := by
      rw [runOp_add_items, hs]
      simp [insertMerge, hmatch]
    obtain ⟨it', h1, h2, h3, h4⟩ := ih
      (fun b hb => hkey b (List.mem_cons_of_mem a hb))
      (runOp s (CartOp.add a)) (mergeAdd (mkCartItem a) it) hstep
      (by simpa [mergeAdd] using hp) (by simpa [mergeAdd] using hv)
    refine ⟨it', h1, h2, h3, ?_⟩
    rw [h4]
    simp [mergeAdd, mkCartItem, add_assoc]

/-! The claims. -/

/-- C1: after any public cart operation (addItem, removeItem, updateQuantity,
clearCart, applyDiscount, removeDiscount, setShippingMethod) settles — reducer
step plus the summary-recomputation effect the provider runs on every
items/discounts/shipping change — the stored summary equals
`calculateCartSummary` of the state's own items, discounts and shipping,
for every initialized state. -/
theorem summary_consistent_after_public_op (s : CartState) (op : CartOp)
    (h : s.isInitialized = true) :
    (runOp s op).summary =
      calculateCartSummary (runOp s op).items (runOp s op).discounts
        (runOp s op).shipping := by
  have h' : (cartReducer s op.toAction).isInitialized = true := by
    rw [toAction_keeps_isInitialized]; exact h
  unfold runOp dispatchPublic runEffect
  rw [if_pos h']
  rfl

/-- Witness for C1: the clear-cart operation on an initialized empty state. -/
theorem summary_consistent_after_public_op_witness :
    ({ initialState with isInitialized := true } : CartState).isInitialized = true ∧
    (runOp { initialState with isInitialized := true } CartOp.clear).summary =
      calculateCartSummary
        (runOp { initialState with isInitialized := true } CartOp.clear).items
        (runOp { initialState with isInitialized := true } CartOp.clear).discounts
        (runOp { initialState with isInitialized := true } CartOp.clear).shipping :=
  ⟨rfl, summary_consistent_after_public_op _ CartOp.clear rfl⟩

/-- C2: on a cart with exactly one line item of unit price 20 and quantity 2,
one 10% percentage discount, and no shipping selection, `calculateCartSummary`
returns subtotal 40, discountAmount 4, taxAmount 2.88, shippingAmount 0 and
total 38.88 (item count 2, weight 0). -/
theorem scenario_percentage_discount_summary :
    calculateCartSummary [mkCartItem input20] [discount10] none =
      { subtotal := 40, taxAmount := 288 / 100, shippingAmount := 0,
        discountAmount := 4, total := 3888 / 100, itemCount := 2, weight := 0 } := by
  simp [calculateCartSummary, mkCartItem, jsOr, discountStep, input20, discount10,
    CartSummary.mk.injEq]
  norm_num

/-- C3: any nonempty sequence of addItem calls whose arguments all share one
(productId, variant id) pair, run from the empty cart, leaves exactly one
line item; it carries that pair and its quantity is the sum of the added
quantities. -/
theorem addItem_same_key_merges_to_single_item (inputs : List CartItemInput)
    (pid : String) (vid : Option String) (hne : inputs ≠ [])
    (hkey : ∀ a ∈ inputs, a.productId = pid ∧ a.variant.map Variant.id = vid) :
    ∃ it, (runOps initialState (inputs.map CartOp.add)).items = [it] ∧
      it.productId = pid ∧ it.variant.map Variant.id = vid ∧
      it.quantity = (inputs.map CartItemInput.quantity).sum := by
  obtain ⟨a, rest, rfl⟩ := List.exists_cons_of_ne_nil hne
  have ha := hkey a (List.mem_cons_self a rest)
  have h0 : (runOp initialState (CartOp.add a)).items = [mkCartItem a] := by
    rw [runOp_add_items]
    rfl
  obtain ⟨it, h1, h2, h3, h4⟩ := runOps_add_same_key pid vid rest
    (fun b hb => hkey b (List.mem_cons_of_mem a hb))
    (runOp initialState (CartOp.add a)) (mkCartItem a) h0
    (by simpa [mkCartItem] using ha.1) (by simpa [mkCartItem] using ha.2)
  refine ⟨it, h1, h2, h3, ?_⟩
  rw [h4]
  simp [mkCartItem]

/-- Witness for C3: adding the same variant-free product twice. -/
theorem addItem_same_key_merges_to_single_item_witness :
    ([input20, input20] : List CartItemInput) ≠ [] ∧
    (∀ a ∈ [input20, input20],
      a.productId = "p1" ∧ a.variant.map Variant.id = none) ∧
    ∃ it, (runOps initialState ([input20, input20].map CartOp.add)).items = [it] ∧
      it.productId = "p1" ∧ it.variant.map Variant.id = none ∧
      it.quantity = ([input20, input20].map CartItemInput.quantity).sum := by
  have hne : ([input20, input20] : List CartItemInput) ≠ [] := by simp
  have hkey : ∀ a ∈ [input20, input20],
      a.productId = "p1" ∧ a.variant.map Variant.id = (none : Option String) := by
    intro a ha
    simp only [List.mem_cons, List.not_mem_nil, or_false, or_self] at ha
    subst ha
    exact ⟨rfl, rfl⟩
  exact ⟨hne, hkey,
    addItem_same_key_merges_to_single_item [input20, input20] "p1" none hne hkey⟩

/-- C4 as stated is false: the code recomputes totals from the item's stored
price field, not from the product's catalog price. One addItem whose price
field (5) differs from the product price (7) reaches a state whose single
line has total 5 while quantity × product price is 7. -/
theorem lineItem_total_product_price_counterexample :
    ¬ ∀ ops : List CartOp, ∀ it ∈ (runOps initialState ops).items,
        it.total = it.quantity * specUnitPrice it := by
  intro hall
  have hitems : (runOps initialState [CartOp.add inputMismatch]).items =
      [mkCartItem inputMismatch] := by
    show (runOp initialState (CartOp.add inputMismatch)).items = _
    rw [runOp_add_items]
    rfl
  have hbad := hall [CartOp.add inputMismatch] (mkCartItem inputMismatch)
    (by rw [hitems]; exact List.mem_singleton.mpr rfl)
  norm_num [mkCartItem, inputMismatch, specUnitPrice, jsOr] at hbad

/-- C4 (amended): in every state reachable from the empty cart by a public
operation sequence whose addItem calls are add-uniform (same variant and same
price field whenever the (productId, variant id) key coincides), every line
item satisfies total = quantity × unit price, where the unit price is the
variant's price when a variant with nonzero price is present and the item's
stored price field otherwise. -/
theorem lineItem_total_eq_quantity_mul_unitPrice (ops : List CartOp)
    (hU : UniformAdds ops) :
    ∀ it ∈ (runOps initialState ops).items,
      it.total = it.quantity * unitPrice it :=
  (runOps_preserves ops hU ops (fun _ h => h) initialState
    (fun it hit => absurd hit (List.not_mem_nil it))
    (fun it hit => absurd hit (List.not_mem_nil it))).1

/-- Witness for the amended C4: adding the same variant-carrying argument
twice is add-uniform, and the resulting totals obey quantity × unit price. -/
theorem lineItem_total_eq_quantity_mul_unitPrice_witness :
    UniformAdds [CartOp.add inputVar, CartOp.add inputVar] ∧
    ∀ it ∈ (runOps initialState
        [CartOp.add inputVar, CartOp.add inputVar]).items,
      it.total = it.quantity * unitPrice it := by
  have hU : UniformAdds [CartOp.add inputVar, CartOp.add inputVar] := by
    intro a b ha hb _
    simp only [List.mem_cons, List.not_mem_nil, or_false, or_self,
      CartOp.add.injEq] at ha hb
    subst ha
    subst hb
    exact ⟨rfl, rfl⟩
  exact ⟨hU, lineItem_total_eq_quantity_mul_unitPrice _ hU⟩

/-- C5: for every item list, discount list and shipping selection, a present
free-shipping discount forces `shippingAmount = 0` and makes the whole summary
(in particular the total) independent of the shipping selection; with no
free-shipping discount present, `shippingAmount` is exactly the selected
shipping cost (0 when nothing is selected), so removing the free-shipping
discount restores the selected cost on the next recomputation. -/
theorem free_shipping_zeroes_shipping_amount (items : List CartItem)
    (discounts : List CartDiscount) (shipping : Option CartShipping) :
    ((∃ d ∈ discounts, d.type = DiscountType.free_shipping) →
      (calculateCartSummary items discounts shipping).shippingAmount = 0 ∧
      ∀ shipping', calculateCartSummary items discounts shipping =
        calculateCartSummary items discounts shipping') ∧
    ((∀ d ∈ discounts, d.type ≠ DiscountType.free_shipping) →
      (calculateCartSummary items discounts shipping).shippingAmount =
        (shipping.map CartShipping.cost).getD 0) := by
  constructor
  · intro hex
    have hany : discounts.any isFreeShipping = true := by
      simpa [List.any_eq_true, isFreeShipping] using hex
    constructor
    · simp [calculateCartSummary, foldl_discountStep_snd, hany]
    · intro shipping'
      simp [calculateCartSummary, foldl_discountStep_snd, foldl_discountStep_fst, hany]
  · intro hall
    have hany : discounts.any isFreeShipping = false := by
      simp [List.any_eq_false, isFreeShipping]
      exact hall
    simp [calculateCartSummary, foldl_discountStep_snd, hany, jsOr_zero]

/-- Witness for C5: a cost-5 shipping selection with a free-shipping discount
(shipping amount 0), and the same selection with only a percentage discount
(shipping amount 5). -/
theorem free_shipping_zeroes_shipping_amount_witness :
    ((∃ d ∈ [discountFS], d.type = DiscountType.free_shipping) ∧
      (calculateCartSummary [mkCartItem input20] [discountFS]
        (some ship5)).shippingAmount = 0) ∧
    ((∀ d ∈ [discount10], d.type ≠ DiscountType.free_shipping) ∧
      (calculateCartSummary [mkCartItem input20] [discount10]
        (some ship5)).shippingAmount = ((some ship5).map CartShipping.cost).getD 0) :=
  ⟨⟨⟨discountFS, by simp, rfl⟩,
    ((free_shipping_zeroes_shipping_amount [mkCartItem input20] [discountFS]
      (some ship5)).1 ⟨discountFS, by simp, rfl⟩).1⟩,
   ⟨by intro d hd; simp only [List.mem_singleton] at hd; subst hd; decide,
    (free_shipping_zeroes_shipping_amount [mkCartItem input20] [discount10]
      (some ship5)).2
      (by intro d hd; simp only [List.mem_singleton] at hd; subst hd; decide)⟩⟩

/-- C6: updating a quantity to any value ≤ 0 yields exactly the state that
removing the item yields, as public operations on any cart state. -/
theorem updateQuantity_nonpos_eq_removeItem (s : CartState) (itemId : String)
    (q : ℚ) (h : q ≤ 0) :
    runOp s (CartOp.update itemId q) = runOp s (CartOp.remove itemId) := by
  have hr : cartReducer s (CartAction.UPDATE_QUANTITY itemId q) =
      cartReducer s (CartAction.REMOVE_ITEM itemId) := by
    simp [cartReducer, if_pos h]
  simp [runOp, dispatchPublic, CartOp.toAction, hr]

/-- Witness for C6: quantity 0 on the empty cart. -/
theorem updateQuantity_nonpos_eq_removeItem_witness :
    (0 : ℚ) ≤ 0 ∧
    runOp initialState (CartOp.update "x" 0) = runOp initialState (CartOp.remove "x") :=
  ⟨le_refl 0, updateQuantity_nonpos_eq_removeItem initialState "x" 0 (le_refl 0)⟩

/-- C7: on a concrete cart (subtotal 40) carrying a 200% percentage discount,
`calculateCartSummary` accumulates a discountAmount above the subtotal and —
with no shipping selected — returns a negative taxAmount and a negative total:
`subtotal - discountAmount` is nowhere clamped at zero. -/
theorem negative_total_when_discount_exceeds_subtotal :
    (calculateCartSummary [mkCartItem input20] [discount200] none).discountAmount >
      (calculateCartSummary [mkCartItem input20] [discount200] none).subtotal ∧
    (calculateCartSummary [mkCartItem input20] [discount200] none).taxAmount < 0 ∧
    (calculateCartSummary [mkCartItem input20] [discount200] none).shippingAmount = 0 ∧
    (calculateCartSummary [mkCartItem input20] [discount200] none).total < 0 := by
  simp [calculateCartSummary, mkCartItem, jsOr, discountStep, input20, discount200]
  norm_num

/-- C8: the safe-apply wrapper rejects a discount whose code is already
active, whose value is ≤ 0, or which is a percentage discount above 100; on
rejection the items, discounts and shipping are unchanged and the rejection
reason lands in the cart-level error field (the wrapper returns a state, it
throws nothing). -/
theorem applyDiscountSafely_rejects (cart : CartState) (discount : CartDiscount)
    (h : (∃ d ∈ cart.discounts, d.code = discount.code) ∨ discount.value ≤ 0 ∨
      (discount.type = DiscountType.percentage ∧ discount.value > 100)) :
    (applyDiscountSafely cart discount).items = cart.items ∧
    (applyDiscountSafely cart discount).discounts = cart.discounts ∧
    (applyDiscountSafely cart discount).shipping = cart.shipping ∧
    (applyDiscountSafely cart discount).error.isSome = true := by
  unfold applyDiscountSafely
  split_ifs with h1 h2 h3
  · exact ⟨rfl, rfl, rfl, rfl⟩
  · exact ⟨rfl, rfl, rfl, rfl⟩
  · exact ⟨rfl, rfl, rfl, rfl⟩
  · exfalso
    rcases h with h | h | h
    · exact h1 (by simpa [List.any_eq_true] using h)
    · exact h2 h
    · exact h3 h

/-- Witness for C8: re-applying an already-active code is rejected without
touching items, discounts or shipping. -/
theorem applyDiscountSafely_rejects_witness :
    (∃ d ∈ ({ initialState with discounts := [discount10] } : CartState).discounts,
      d.code = discount10.code) ∧
    ((applyDiscountSafely { initialState with discounts := [discount10] }
        discount10).items =
      ({ initialState with discounts := [discount10] } : CartState).items ∧
    (applyDiscountSafely { initialState with discounts := [discount10] }
        discount10).discounts =
      ({ initialState with discounts := [discount10] } : CartState).discounts ∧
    (applyDiscountSafely { initialState with discounts := [discount10] }
        discount10).shipping =
      ({ initialState with discounts := [discount10] } : CartState).shipping ∧
    (applyDiscountSafely { initialState with discounts := [discount10] }
        discount10).error.isSome = true) :=
  ⟨⟨discount10, by simp, rfl⟩,
   applyDiscountSafely_rejects { initialState with discounts := [discount10] }
     discount10 (Or.inl ⟨discount10, by simp, rfl⟩)⟩

/-- C9: for every persisted snapshot and every deserializer behavior, the
startup load yields either the deserialized state or the empty initial state
(each with the initialized flag set and loading cleared); it always leaves
the store initialized, and being a total function it propagates no error. -/
theorem loadCart_falls_back_to_initial (parse : String → Except String CartState)
    (savedCart : Option String) :
    (loadCart parse savedCart).isInitialized = true ∧
    ((∃ saved cartData, savedCart = some saved ∧ parse saved = .ok cartData ∧
        loadCart parse savedCart =
          { cartData with isInitialized := true, isLoading := false }) ∨
      loadCart parse savedCart =
        { initialState with isInitialized := true, isLoading := false }) := by
  cases savedCart with
  | none => exact ⟨rfl, Or.inr rfl⟩
  | some saved =>
    cases hp : parse saved with
    | ok cartData =>
      refine ⟨?_, Or.inl ⟨saved, cartData, rfl, hp, ?_⟩⟩ <;>
        simp [loadCart, hp, cartReducer]
    | error e =>
      refine ⟨?_, Or.inr ?_⟩ <;> simp [loadCart, hp, cartReducer]

/-- C10: `calculateCartSummary` is invariant under permutation of its discount
list: each percentage/fixed-amount contribution depends only on the subtotal,
and free-shipping only forces the shipping amount to 0, so the application
order never changes the result. -/
theorem calculateCartSummary_perm_invariant (items : List CartItem)
    (shipping : Option CartShipping) (d₁ d₂ : List CartDiscount)
    (h : d₁.Perm d₂) :
    calculateCartSummary items d₁ shipping =
      calculateCartSummary items d₂ shipping := by
  have hsum : ∀ st : ℚ, (d₁.map (discountContribution st)).sum =
      (d₂.map (discountContribution st)).sum := fun st => (h.map _).sum_eq
  have hany : d₁.any isFreeShipping = d₂.any isFreeShipping := perm_any h _
  simp [calculateCartSummary, foldl_discountStep_fst, foldl_discountStep_snd,
    hsum, hany]

/-- Witness for C10: swapping a percentage discount and a free-shipping
discount leaves the summary unchanged. -/
theorem calculateCartSummary_perm_invariant_witness :
    List.Perm [discount10, discountFS] [discountFS, discount10] ∧
    calculateCartSummary [mkCartItem input20] [discount10, discountFS]
        (some ship5) =
      calculateCartSummary [mkCartItem input20] [discountFS, discount10]
        (some ship5) :=
  ⟨List.Perm.swap discountFS discount10 [],
   calculateCartSummary_perm_invariant [mkCartItem input20] (some ship5)
     [discount10, discountFS] [discountFS, discount10]
     (List.Perm.swap discountFS discount10 [])⟩

end Onicommerce
